import Mathlib

/-!
Shallow embedding of `src/script.js`, a browser demo script.

Modelling conventions:
* JS numbers are rationals (`ℚ`); `Math.round` is Mathlib's `round`
  (`round x = ⌊x + 1/2⌋`, which matches `Math.round` on the positive
  values arising here).
* The multiplier argument of `computeDurationMs` is the result of the JS
  `Number(...)` conversion, modelled as `Option ℚ`: `none` is `NaN`
  (unparseable text); note `Number("") = 0` in JS, so the empty input
  arrives as `some 0`.
* A DOM element's `classList` is a `Finset String`; an element that may be
  absent is an `Option (Finset String)`.
* The page is a state machine `PageState`; each event listener becomes a
  state-transforming function, and `setTimeout` becomes a list of pending
  deadlines (`pendingClose`) fired by explicit time-advance steps.
  Text-content and inline-style writes are presentation only and are not
  part of the state.
-/

namespace Script

/-- Source `clamp(value, min, max) = Math.max(min, Math.min(max, value))`. -/
def clamp (value min max : ℚ) : ℚ :=
  Max.max min (Min.min max value)

/-- The JS expression `Number(multiplier) || 1`: `NaN` (`none`) and the
falsy number `0` both fall back to the default `1`. -/
def numberOr1 (multiplier : Option ℚ) : ℚ :=
  match multiplier with
  | none => 1
  | some v => if v = 0 then 1 else v

/-- Source `computeDurationMs(multiplier)`:
`Math.round(900 * clamp(Number(multiplier) || 1, 0.25, 4))`. -/
def computeDurationMs (multiplier : Option ℚ) : ℤ :=
  let base : ℚ := 900
  let m : ℚ := clamp (numberOr1 multiplier) (1 / 4) 4
  round (base * m)

/-- Source `makeCounter(start)`: the initial value of the closure's private
variable `count`. -/
def makeCounter (start : ℤ) : ℤ :=
  start

/-- The function `inc` returned by `makeCounter`, as a state transformer on
the captured `count`: it increments `count` and returns the new value.
First component: new `count`; second: the returned value. -/
def inc (count : ℤ) : ℤ × ℤ :=
  (count + 1, count + 1)

/-- The private `count` after `n` calls of the increment function obtained
from `makeCounter start`. -/
def counterStateAfter (start : ℤ) : ℕ → ℤ
  | 0 => makeCounter start
  | n + 1 => (inc (counterStateAfter start n)).1

/-- The value returned by call number `n + 1` (zero-indexed `n`) to the
increment function obtained from `makeCounter start`. -/
def counterReturn (start : ℤ) (n : ℕ) : ℤ :=
  (inc (counterStateAfter start n)).2

/-- A world of several independent counters: entry `i` is the private
`count` of the counter produced by the `i`-th `makeCounter` call. -/
def callCounter (w : List ℤ) (i : ℕ) : List ℤ × ℤ :=
  let c := w.getD i 0 + 1
  (w.set i c, c)

/-- DOM `el.classList.toggle(className, force)` for a boolean `force`:
add when `true`, remove when `false`. -/
def classListToggleForce (cl : Finset String) (className : String)
    (force : Bool) : Finset String :=
  if force then insert className cl else cl.erase className

/-- DOM `el.classList.toggle(className)` without `force`: flip membership. -/
def classListToggle (cl : Finset String) (className : String) :
    Finset String :=
  if className ∈ cl then cl.erase className else insert className cl

/-- Source `toggleClass(el, className, force)`. Returns the element state after
the call together with the function's return value.  `force : Option Bool`
models the optional parameter (`some f` = `typeof force === "boolean"`). -/
def toggleClass (el : Option (Finset String)) (className : String)
    (force : Option Bool) : Option (Finset String) × Bool :=
  match el with
  | none => (none, false)
  | some cl =>
    match force with
    | some f => (some (classListToggleForce cl className f), f)
    | none =>
      let cl2 := classListToggle cl className
      (some cl2, decide (className ∈ cl2))

/-- Whether the element returned by `toggleClass` carries `className`. -/
def resultHas (r : Option (Finset String) × Bool) (className : String) :
    Prop :=
  match r.1 with
  | none => False
  | some cl => className ∈ cl

/-- The global `AppState` record. -/
structure AppStateT where
  animationRuns : ℤ
  lastDurationMs : ℤ
deriving DecidableEq

/-- The `#modal` element: its `classList` and `aria-hidden` attribute. -/
structure ModalState where
  classList : Finset String
  ariaHidden : String
deriving DecidableEq

/-- The whole mutable state the script touches.  `runsCount` is the
private `count` captured by `incrementRuns = makeCounter(AppState.animationRuns)`;
`now` is the clock in milliseconds and `pendingClose` the deadlines of the
`setTimeout` calls scheduled by `closeModal` (all share one callback). -/
structure PageState where
  app : AppStateT
  runsCount : ℤ
  box : Finset String
  card : Finset String
  loader : Finset String
  modal : ModalState
  now : ℕ
  pendingClose : List ℕ
deriving DecidableEq

/-- Initial `AppState`: `{ animationRuns: 0, lastDurationMs: 900 }`. -/
def initApp : AppStateT :=
  { animationRuns := 0, lastDurationMs := 900 }

/-- Page state at load time.  The HTML file is not part of the sources;
the initial class lists and attribute chosen here are the natural
closed-modal ones, and no claim depends on them. -/
def initState : PageState :=
  { app := initApp
    runsCount := makeCounter initApp.animationRuns
    box := ∅
    card := ∅
    loader := ∅
    modal := { classList := ∅, ariaHidden := "true" }
    now := 0
    pendingClose := [] }

/-- Handler for `calcBtn` clicks: computes the duration from the parsed input
and writes it to `AppState.lastDurationMs`. -/
def calcStep (input : Option ℚ) (s : PageState) : PageState :=
  let duration := computeDurationMs input
  { s with app := { s.app with lastDurationMs := duration } }

/-- Handler for `scopeBtn` clicks: calls `incrementRuns()` twice. -/
def scopeStep (s : PageState) : PageState :=
  let r1 := inc s.runsCount
  let r2 := inc r1.1
  { s with runsCount := r2.1 }

/-- Handler for `animateBtn` clicks: removes and re-adds the class `run` on the
box (net effect on the class set). -/
def animateStep (s : PageState) : PageState :=
  { s with box := insert "run" (s.box.erase "run") }

/-- Handler for `flipBtn` clicks: `toggleClass(jsFlipCard, "is-flipped")`. -/
def flipStep (s : PageState) : PageState :=
  { s with card := (toggleClass (some s.card) "is-flipped" none).1.getD s.card }

/-- Handler for `startLoader` clicks: `toggleClass(loader, "on", true)`. -/
def startLoaderStep (s : PageState) : PageState :=
  { s with loader := (toggleClass (some s.loader) "on" (some true)).1.getD s.loader }

/-- Handler for `stopLoader` clicks: `toggleClass(loader, "on", false)`. -/
def stopLoaderStep (s : PageState) : PageState :=
  { s with loader := (toggleClass (some s.loader) "on" (some false)).1.getD s.loader }

/-- Source `openModal()`: remove `closing`, add `open`, set `aria-hidden="false"`. -/
def openModalStep (s : PageState) : PageState :=
  { s with modal := { classList := insert "open" (s.modal.classList.erase "closing")
                      ariaHidden := "false" } }

/-- The `setTimeout` callback inside `closeModal`: remove the classes
`open` and `closing` and set `aria-hidden="true"`. -/
def closeCallback (m : ModalState) : ModalState :=
  { classList := (m.classList.erase "open").erase "closing"
    ariaHidden := "true" }

/-- Source `closeModal()`: add the class `closing` and schedule the close
callback 260 ms from now (fire-and-forget; nothing ever cancels it). -/
def closeModalStep (s : PageState) : PageState :=
  { s with modal := { s.modal with classList := insert "closing" s.modal.classList }
           pendingClose := s.pendingClose ++ [s.now + 260] }

/-- Handler for `keydown`: Escape closes the modal only while it has class
`open`. -/
def escapeStep (s : PageState) : PageState :=
  if "open" ∈ s.modal.classList then closeModalStep s else s

/-- The DOM events the script listens to. -/
inductive Event where
  | calcClick (input : Option ℚ)
  | scopeClick
  | animateClick
  | flipClick
  | startLoaderClick
  | stopLoaderClick
  | openModalClick
  | closeModalClick
  | backdropClick
  | escapeKey
deriving DecidableEq

/-- Dispatch an event to its listener. Each handler runs to completion at
the current time. -/
def handle : Event → PageState → PageState
  | Event.calcClick input => calcStep input
  | Event.scopeClick => scopeStep
  | Event.animateClick => animateStep
  | Event.flipClick => flipStep
  | Event.startLoaderClick => startLoaderStep
  | Event.stopLoaderClick => stopLoaderStep
  | Event.openModalClick => openModalStep
  | Event.closeModalClick => closeModalStep
  | Event.backdropClick => closeModalStep
  | Event.escapeKey => escapeStep

/-- Fire every pending close timer whose deadline has been reached. -/
def fireDue (s : PageState) : PageState :=
  { s with pendingClose := s.pendingClose.filter (fun d => decide (s.now < d))
           modal := (s.pendingClose.filter (fun d => decide (d ≤ s.now))).foldl
             (fun m _ => closeCallback m) s.modal }

/-- One step of the event loop: either a DOM event or the passage of time
(after which due timers fire). -/
inductive Step where
  | ev : Event → Step
  | advance : ℕ → Step
deriving DecidableEq

/-- Execute one step. -/
def exec : Step → PageState → PageState
  | Step.ev e, s => handle e s
  | Step.advance δ, s => fireDue { s with now := s.now + δ }

/-- Execute a sequence of steps. -/
def run (steps : List Step) (s : PageState) : PageState :=
  steps.foldl (fun s st => exec st s) s

/-- The modal is fully closed: neither `open` nor `closing` in its class
list and `aria-hidden="true"`. -/
def modalFullyClosed (m : ModalState) : Prop :=
  ¬ "open" ∈ m.classList ∧ ¬ "closing" ∈ m.classList ∧ m.ariaHidden = "true"

theorem run_nil (s : PageState) : run [] s = s := rfl

theorem run_cons (st : Step) (steps : List Step) (s : PageState) :
    run (st :: steps) s = run steps (exec st s) := rfl

instance (m : ModalState) : Decidable (modalFullyClosed m) := by
  unfold modalFullyClosed
  infer_instance

theorem round_mono_rat {a b : ℚ} (h : a ≤ b) : round a ≤ round b := by
  rw [round_eq, round_eq]
  exact Int.floor_mono (by linarith)

theorem clamp_le (v : ℚ) : clamp v (1 / 4) 4 ≤ 4 :=
  max_le (by norm_num) (min_le_left _ _)

theorem le_clamp (v : ℚ) : (1 / 4 : ℚ) ≤ clamp v (1 / 4) 4 :=
  le_max_left _ _

theorem computeDurationMs_mem (input : Option ℚ) :
    225 ≤ computeDurationMs input ∧ computeDurationMs input ≤ 3600 := by
  have h1 := le_clamp (numberOr1 input)
  have h2 := clamp_le (numberOr1 input)
  have hlo : (225 : ℤ) ≤ round ((900 : ℚ) * clamp (numberOr1 input) (1 / 4) 4) := by
    have h4 : (225 : ℤ) = round ((225 : ℚ)) := by norm_num [round_eq]
    rw [h4]
    exact round_mono_rat (by linarith)
  have hhi : round ((900 : ℚ) * clamp (numberOr1 input) (1 / 4) 4) ≤ 3600 := by
    have h4 : (3600 : ℤ) = round ((3600 : ℚ)) := by norm_num [round_eq]
    rw [h4]
    exact round_mono_rat (by linarith)
  exact ⟨hlo, hhi⟩

/-- Invariant for the shared state: the stored duration lies in the
interval between 225 and 3600 milliseconds. -/
def durOK (s : PageState) : Prop :=
  225 ≤ s.app.lastDurationMs ∧ s.app.lastDurationMs ≤ 3600

theorem exec_durOK (st : Step) (s : PageState) (h : durOK s) :
    durOK (exec st s) := by
  cases st with
  | ev e =>
    cases e with
    | calcClick input => exact computeDurationMs_mem input
    | escapeKey =>
      simp only [exec, handle, escapeStep]
      split
      · exact h
      · exact h
    | scopeClick => exact h
    | animateClick => exact h
    | flipClick => exact h
    | startLoaderClick => exact h
    | stopLoaderClick => exact h
    | openModalClick => exact h
    | closeModalClick => exact h
    | backdropClick => exact h
  | advance δ => exact h

theorem run_durOK (steps : List Step) :
    ∀ s : PageState, durOK s → durOK (run steps s) := by
  induction steps with
  | nil => exact fun _ h => h
  | cons st rest ih => exact fun s h => ih (exec st s) (exec_durOK st s h)

theorem counterStateAfter_eq (start : ℤ) (n : ℕ) :
    counterStateAfter start n = start + n := by
  induction n with
  | zero => simp [counterStateAfter, makeCounter]
  | succ n ih =>
    simp only [counterStateAfter, inc, ih]
    push_cast
    ring

theorem counterReturn_eq (start : ℤ) (n : ℕ) :
    counterReturn start n = start + n + 1 := by
  simp [counterReturn, inc, counterStateAfter_eq]

theorem handle_now (e : Event) (s : PageState) : (handle e s).now = s.now := by
  cases e <;> first
    | rfl
    | · simp only [handle, escapeStep]
        split <;> rfl

theorem exec_now_le (st : Step) (s : PageState) : s.now ≤ (exec st s).now := by
  cases st with
  | ev e => exact le_of_eq (handle_now e s).symm
  | advance δ => exact Nat.le_add_right _ _

theorem run_now_le (steps : List Step) :
    ∀ s : PageState, s.now ≤ (run steps s).now := by
  induction steps with
  | nil => exact fun _ => le_refl _
  | cons st rest ih =>
    exact fun s => le_trans (exec_now_le st s) (ih (exec st s))

theorem handle_pending (e : Event) (s : PageState) (d : ℕ)
    (hd : d ∈ s.pendingClose) : d ∈ (handle e s).pendingClose := by
  cases e <;> first
    | exact hd
    | exact List.mem_append_left _ hd
    | · simp only [handle, escapeStep]
        split
        · exact List.mem_append_left _ hd
        · exact hd

theorem exec_pending (st : Step) (s : PageState) (d : ℕ)
    (hd : d ∈ s.pendingClose) (hlt : (exec st s).now < d) :
    d ∈ (exec st s).pendingClose := by
  cases st with
  | ev e => exact handle_pending e s d hd
  | advance δ => exact List.mem_filter.2 ⟨hd, decide_eq_true hlt⟩

theorem run_pending (steps : List Step) (d : ℕ) :
    ∀ s : PageState, d ∈ s.pendingClose → (run steps s).now < d →
      d ∈ (run steps s).pendingClose := by
  induction steps with
  | nil => exact fun _ hd _ => hd
  | cons st rest ih =>
    intro s hd hlt
    exact ih (exec st s)
      (exec_pending st s d hd (lt_of_le_of_lt (run_now_le rest (exec st s)) hlt))
      hlt

theorem closeCallback_closed (m : ModalState) :
    modalFullyClosed (closeCallback m) := by
  simp [modalFullyClosed, closeCallback, Finset.mem_erase]

theorem foldl_closeCallback_closed :
    ∀ (l : List ℕ) (m : ModalState), l ≠ [] →
      modalFullyClosed (l.foldl (fun m _ => closeCallback m) m)
  | [], _, h => absurd rfl h
  | [_], m, _ => closeCallback_closed m
  | _ :: d2 :: l, m, _ =>
    foldl_closeCallback_closed (d2 :: l) (closeCallback m) (List.cons_ne_nil _ _)

theorem fireDue_closed (s : PageState) (d : ℕ)
    (hd : d ∈ s.pendingClose) (hle : d ≤ s.now) :
    modalFullyClosed (fireDue s).modal := by
  have hmem : d ∈ s.pendingClose.filter (fun d => decide (d ≤ s.now)) :=
    List.mem_filter.2 ⟨hd, decide_eq_true hle⟩
  exact foldl_closeCallback_closed _ s.modal (List.ne_nil_of_mem hmem)

theorem handle_animationRuns (e : Event) (s : PageState) :
    (handle e s).app.animationRuns = s.app.animationRuns := by
  cases e <;> first
    | rfl
    | · simp only [handle, escapeStep]
        split <;> rfl

theorem exec_animationRuns (st : Step) (s : PageState) :
    (exec st s).app.animationRuns = s.app.animationRuns := by
  cases st with
  | ev e => exact handle_animationRuns e s
  | advance δ => rfl

theorem run_animationRuns (steps : List Step) :
    ∀ s : PageState, (run steps s).app.animationRuns = s.app.animationRuns := by
  induction steps with
  | nil => exact fun _ => rfl
  | cons st rest ih =>
    exact fun s => (ih (exec st s)).trans (exec_animationRuns st s)

/-- C1 counterexample: at multiplier `0` (a falsy JS number) the code
returns the default duration 900, while the claimed formula
`round(900 * clamp(0, 0.25, 4))` gives 225, so the claimed identity is
false at `m = 0`. -/
theorem computeDurationMs_zero_breaks_formula :
    computeDurationMs (some 0) = 900 ∧
    round ((900 : ℚ) * clamp 0 (1 / 4) 4) = 225 ∧
    computeDurationMs (some 0) ≠ round ((900 : ℚ) * clamp 0 (1 / 4) 4) := by
  refine ⟨?_, ?_, ?_⟩ <;>
    norm_num [computeDurationMs, numberOr1, clamp, round_eq]

/-- C1 (amended): for every multiplier that parses to a nonzero number,
`computeDurationMs m = round (900 * clamp m (1/4) 4)`; the sole exception
forced by the counterexample is the falsy number `0`, where the default
multiplier 1 applies instead. -/
theorem computeDurationMs_eq_round_clamp (m : ℚ) (hm : m ≠ 0) :
    computeDurationMs (some m) = round ((900 : ℚ) * clamp m (1 / 4) 4) := by
  simp [computeDurationMs, numberOr1, hm]

/-- C1 witness: the amended identity instantiated at multiplier 2. -/
theorem computeDurationMs_eq_round_clamp_witness :
    computeDurationMs (some 2) = round ((900 : ℚ) * clamp 2 (1 / 4) 4) :=
  computeDurationMs_eq_round_clamp 2 (by norm_num)

/-- C2: call number `n+1` of the increment function of `makeCounter start`
returns `start + n + 1`, so successive calls return a strictly increasing
integer sequence starting at `start + 1` that persists in the closure
state; and incrementing one counter of a multi-counter world leaves every
other counter unchanged. -/
theorem makeCounter_spec (start : ℤ) (n : ℕ) (w : List ℤ) (i j : ℕ)
    (hij : i ≠ j) :
    counterReturn start n = start + n + 1 ∧
    counterReturn start n < counterReturn start (n + 1) ∧
    (callCounter w i).1.getD j 0 = w.getD j 0 := by
  refine ⟨counterReturn_eq start n, ?_, ?_⟩
  · rw [counterReturn_eq, counterReturn_eq]
    push_cast
    linarith
  · show (w.set i (w.getD i 0 + 1)).getD j 0 = w.getD j 0
    simp [List.getD_eq_getElem?_getD, List.getElem?_set_ne hij]

/-- C2 witness: the counter specification at seed 5, first call, and a
two-counter world where counter 0 is incremented. -/
theorem makeCounter_spec_witness :
    counterReturn 5 0 = 6 ∧ counterReturn 5 0 < counterReturn 5 1 ∧
    (callCounter [3, 7] 0).1.getD 1 0 = 7 := by
  have h := makeCounter_spec 5 0 [3, 7] 0 1 (by decide)
  exact ⟨by simpa using h.1, h.2.1, h.2.2⟩

/-- C3: with a present element and a boolean `force`, `toggleClass`
returns `force`, and afterwards the element has the class exactly when
`force` is `true`, regardless of the prior class set. -/
theorem toggleClass_forced (cl : Finset String) (className : String)
    (f : Bool) :
    (toggleClass (some cl) className (some f)).2 = f ∧
    (resultHas (toggleClass (some cl) className (some f)) className ↔
      f = true) := by
  cases f <;>
    simp [toggleClass, classListToggleForce, resultHas, Finset.mem_erase,
      Finset.mem_insert]

/-- C8: with a present element and no `force`, `toggleClass` flips the
membership of `className`, returns the post-flip membership, and toggling
twice restores the original class set. -/
theorem toggleClass_unforced (cl : Finset String) (className : String) :
    (toggleClass (some cl) className none).1
      = some (classListToggle cl className) ∧
    (toggleClass (some cl) className none).2
      = decide (className ∈ classListToggle cl className) ∧
    (className ∈ classListToggle cl className ↔ ¬ className ∈ cl) ∧
    classListToggle (classListToggle cl className) className = cl := by
  refine ⟨rfl, rfl, ?_, ?_⟩
  · by_cases h : className ∈ cl <;>
      simp [classListToggle, h, Finset.mem_erase, Finset.mem_insert]
  · by_cases h : className ∈ cl
    · have h2 : ¬ className ∈ cl.erase className := by simp
      simp [classListToggle, h, h2, Finset.insert_erase h]
    · have h2 : className ∈ insert className cl := Finset.mem_insert_self _ _
      simp [classListToggle, h, h2, Finset.erase_insert h]

/-- C9: with an absent element, `toggleClass` returns `false` and yields
no element state, for every class name and every `force` argument. -/
theorem toggleClass_absent (className : String) (force : Option Bool) :
    toggleClass none className force = (none, false) := rfl

/-- C4: after any `closeModal` call, whatever DOM events and sub-260ms
delays intervene (more closes by button, backdrop or Escape, and opens,
included), as soon as the clock passes the 260ms deadline the scheduled
callback fires and the modal is fully closed: no `open`, no `closing`,
`aria-hidden="true"`. -/
theorem closeModal_timer_closes (s : PageState) (steps : List Step) (δ : ℕ)
    (hlt : (run steps (closeModalStep s)).now < s.now + 260)
    (hge : s.now + 260 ≤ (run steps (closeModalStep s)).now + δ) :
    modalFullyClosed
      (exec (Step.advance δ) (run steps (closeModalStep s))).modal := by
  have hd0 : s.now + 260 ∈ (closeModalStep s).pendingClose :=
    List.mem_append_right _ (List.mem_singleton.2 rfl)
  have hd : s.now + 260 ∈ (run steps (closeModalStep s)).pendingClose :=
    run_pending steps (s.now + 260) (closeModalStep s) hd0 hlt
  exact fireDue_closed _ (s.now + 260) hd hge

/-- C4 witness: close from the initial state, reopen before the deadline,
then let 300ms elapse: the modal ends fully closed. -/
theorem closeModal_timer_closes_witness :
    modalFullyClosed
      (exec (Step.advance 300)
        (run [Step.ev Event.openModalClick] (closeModalStep initState))).modal :=
  closeModal_timer_closes initState [Step.ev Event.openModalClick] 300
    (by decide) (by decide)

/-- C5: an unparseable multiplier (JS `NaN`, modelled `none`) and the
empty input (which JS `Number` converts to the falsy `0`) both fall back
to the default multiplier 1, so `computeDurationMs` returns 900. -/
theorem computeDurationMs_default :
    computeDurationMs none = 900 ∧ computeDurationMs (some 0) = 900 := by
  constructor <;> norm_num [computeDurationMs, numberOr1, clamp, round_eq]

/-- C6: `computeDurationMs` always yields an integer (codomain `ℤ`)
between 225 and 3600, and along every run from the initial page state
`AppState.lastDurationMs` (initially 900, overwritten only with
`computeDurationMs` results) stays between 225 and 3600. -/
theorem lastDurationMs_bounded (input : Option ℚ) (steps : List Step) :
    (225 ≤ computeDurationMs input ∧ computeDurationMs input ≤ 3600) ∧
    225 ≤ (run steps initState).app.lastDurationMs ∧
    (run steps initState).app.lastDurationMs ≤ 3600 :=
  ⟨computeDurationMs_mem input,
    run_durOK steps initState ⟨by decide, by decide⟩⟩

/-- C7: `openModal` immediately (same clock value, no timer scheduled)
removes `closing`, adds `open`, sets `aria-hidden` to `"false"`, and is
idempotent: a second call leaves the page state exactly as one call. -/
theorem openModal_idempotent (s : PageState) :
    ¬ "closing" ∈ (openModalStep s).modal.classList ∧
    "open" ∈ (openModalStep s).modal.classList ∧
    (openModalStep s).modal.ariaHidden = "false" ∧
    (openModalStep s).now = s.now ∧
    (openModalStep s).pendingClose = s.pendingClose ∧
    openModalStep (openModalStep s) = openModalStep s := by
  refine ⟨?_, ?_, rfl, rfl, rfl, ?_⟩
  · simp [openModalStep, Finset.mem_insert, Finset.mem_erase]
  · simp [openModalStep]
  · simp only [openModalStep]
    rw [Finset.erase_insert_of_ne (by decide : ("open" : String) ≠ "closing"),
      Finset.erase_idem, Finset.insert_idem]

/-- C10: no event handler or timer step ever changes
`AppState.animationRuns`: every step preserves it, it stays 0 along every
run from the initial state, and `incrementRuns` starts from a private copy
(`makeCounter` of the initial field value) rather than aliasing the field. -/
theorem animationRuns_constant (st : Step) (steps : List Step)
    (s : PageState) :
    (exec st s).app.animationRuns = s.app.animationRuns ∧
    (run steps initState).app.animationRuns = 0 ∧
    initState.runsCount = makeCounter initState.app.animationRuns :=
  ⟨exec_animationRuns st s, (run_animationRuns steps initState).trans rfl, rfl⟩

end Script
